import Mathlib

/-!
# nerdctl `save` and capability completion

A shallow embedding of `cmd/nerdctl/save.go` (`saveAction`, `saveImage`) and of
`capShellComplete` from `cmd/nerdctl/run_linux.go`.

The Go functions talk to collaborators that live outside the two files: cobra
(`cmd.OutOrStdout`, `cmd.Flags().GetString`), the operating system
(`os.OpenFile`, `isatty.IsTerminal(os.Stdout.Fd())`), containerd
(`newClient`, `refdocker.ParseDockerRef`, `platforms.DefaultStrict`,
`client.Export`, `cap.Known`) and the Go library (`strings.ToLower`).  Their
behaviour is a parameter of the model (`Env`, `Cmd`), the control flow of the
two files is translated statement by statement, and every call that leaves the
function is recorded in a trace so that "is never called" and "before" are
statements about that trace.
-/

namespace Nerdctl

/-! ## Data model -/

/-- One byte of an archive; the payload is never inspected. -/
abbrev Byte := Nat

/-- An error value handed back by a collaborator (cobra, the operating system,
containerd).  The model never looks inside. -/
structure ExtError where
  msg : String
  deriving DecidableEq, Repr

/-- A Go `error` as `saveAction` can return it: either a fresh value built in
`save.go` with `errors.Errorf`, or the very value a collaborator returned
(`external e` is `e` itself, the constructor only records where it was made). -/
inductive Error where
  | errorf (msg : String)
  | external (e : ExtError)
  deriving DecidableEq, Repr

/-- The parsed reference returned by `refdocker.ParseDockerRef`; only its
canonical string `named.String()` is used by `saveImage`. -/
structure Named where
  String : String
  deriving DecidableEq, Repr

/-- The platform matcher returned by `platforms.DefaultStrict()`. -/
abbrev Platform := Nat

/-- The image store returned by `client.ImageService()`. -/
abbrev ImageStore := Nat

/-- The containerd client returned by `newClient`. -/
structure Client where
  ImageService : ImageStore
  deriving DecidableEq, Repr

/-- The values of `archive.ExportOpt` that `save.go` builds. -/
inductive ExportOpt where
  | WithPlatform (p : Platform)
  | WithImage (store : ImageStore) (name : String)
  deriving DecidableEq, Repr

/-- The `io.Writer` values that can reach `saveImage`: the process's
`os.Stdout`, a writer installed on the command with cobra's `SetOut` (its
identity, and whether it is an interactive terminal), or the `*os.File` that
`saveAction` opened itself. -/
inductive Writer where
  | stdout
  | setOut (id : Nat) (tty : Bool)
  | file (path : String)
  deriving DecidableEq, Repr

/-- The part of a `*cobra.Command` that `save.go` reads: the writer installed
with `SetOut`, if any, and the string flags. -/
structure Cmd where
  outWriter : Option (Nat × Bool)
  GetString : String → Except ExtError String

/-- Cobra's `cmd.OutOrStdout()`: the installed writer, else `os.Stdout`. -/
def Cmd.OutOrStdout (cmd : Cmd) : Writer :=
  match cmd.outWriter with
  | some (id, tty) => Writer.setOut id tty
  | none => Writer.stdout

/-- The collaborators of `save.go`. `OpenFile path` is the error of
`os.OpenFile(path, O_CREATE|O_WRONLY, 0644)`, `none` when it succeeds; `Export`
gives the chunks the exporter passes to `out.Write`, in order, and its result. -/
structure Env where
  stdoutIsTerminal : Bool
  OpenFile : String → Option ExtError
  newClient : Cmd → Except ExtError Client
  ParseDockerRef : String → Except ExtError Named
  DefaultStrict : Platform
  Export : Client → Writer → List ExportOpt → List (List Byte) × Option ExtError

/-- The calls that leave `saveAction` and `saveImage`, in program order. -/
inductive Event where
  | outOrStdout
  | getString (flag : String)
  | openFile (path : String)
  | isTerminal
  | saveImage (images : List String) (out : Writer) (saveOpts : List ExportOpt)
  | newClient
  | parseDockerRef (img : String)
  | export (out : Writer) (opts : List ExportOpt)
  | write (out : Writer) (bytes : List Byte)
  | cancel
  | close (path : String)
  deriving DecidableEq, Repr

/-- What the command can change: the file system, the offset of the descriptor
`saveAction` holds on a path, the bytes received by `os.Stdout` and by the
writers installed with `SetOut`, and the trace of calls made so far. -/
structure State where
  files : String → Option (List Byte)
  pos : String → Nat
  stdout : List Byte
  others : Nat → List Byte
  trace : List Event

/-- Append one call to the trace. -/
def State.log (s : State) (e : Event) : State :=
  { s with trace := s.trace ++ [e] }

/-- A successful `os.OpenFile(path, O_CREATE|O_WRONLY, 0644)`: the file is
created empty when it is missing and kept as it is otherwise (no `O_TRUNC`);
the new descriptor starts at offset 0 (no `O_APPEND`). -/
def State.openFile (s : State) (path : String) : State :=
  { s with
    files := match s.files path with
      | some _ => s.files
      | none => Function.update s.files path (some [])
    pos := Function.update s.pos path 0 }

/-- The contents of a file after `bs` is written at offset `off`: the bytes
before `off` stay (a gap past the end reads as zeros), `bs` replaces what was
there, and what lay beyond `off + len(bs)` stays. -/
def writeAt (content : List Byte) (off : Nat) (bs : List Byte) : List Byte :=
  content.take off ++ List.replicate (off - content.length) 0 ++ bs
    ++ content.drop (off + bs.length)

/-- One `out.Write(bs)`. A stream appends; a file descriptor writes at its
offset and advances it. -/
def State.write (s : State) (out : Writer) (bs : List Byte) : State :=
  let s := s.log (Event.write out bs)
  match out with
  | Writer.stdout => { s with stdout := s.stdout ++ bs }
  | Writer.setOut id _ => { s with others := Function.update s.others id (s.others id ++ bs) }
  | Writer.file path =>
    match s.files path with
    | none => s
    | some content =>
      { s with
        files := Function.update s.files path (some (writeAt content (s.pos path) bs))
        pos := Function.update s.pos path (s.pos path + bs.length) }

/-- The chunks of one export run, written to `out` in order. -/
def State.writeAll (s : State) (out : Writer) : List (List Byte) → State
  | [] => s
  | bs :: rest => (s.write out bs).writeAll out rest

/-- What a call returns: the Go `error` (`none` is `nil`) and the state it
leaves. -/
structure Outcome where
  result : Option Error
  state : State

/-! ## `save.go` -/

/-- The loop of `saveImage` (lines 91-97): parse each image string in turn,
return at the first error, otherwise append its `WithImage` option. -/
def parseRefs (env : Env) (imageStore : ImageStore) :
    List String → List ExportOpt → State → Except Error (List ExportOpt) × State
  | [], saveOpts, s => (Except.ok saveOpts, s)
  | img :: rest, saveOpts, s =>
    let s := s.log (Event.parseDockerRef img)
    match env.ParseDockerRef img with
    | Except.error e => (Except.error (Error.external e), s)
    | Except.ok named =>
      parseRefs env imageStore rest (saveOpts ++ [ExportOpt.WithImage imageStore named.String]) s

/-- The function `saveImage` of `save.go` (lines 80-100). -/
def saveImage (env : Env) (images : List String) (out : Writer) (saveOpts : List ExportOpt)
    (cmd : Cmd) (s : State) : Outcome :=
  let s := s.log (Event.saveImage images out saveOpts)
  let s := s.log Event.newClient
  match env.newClient cmd with
  | Except.error e => ⟨some (Error.external e), s⟩
  | Except.ok client =>
    let saveOpts := saveOpts ++ [ExportOpt.WithPlatform env.DefaultStrict]
    let imageStore := client.ImageService
    match parseRefs env imageStore images saveOpts s with
    | (Except.error e, s) => ⟨some e, s.log Event.cancel⟩
    | (Except.ok saveOpts, s) =>
      let s := s.log (Event.export out saveOpts)
      let run := env.Export client out saveOpts
      let s := s.writeAll out run.1
      ⟨run.2.map Error.external, s.log Event.cancel⟩

/-- The function `saveAction` of `save.go` (lines 46-78). -/
def saveAction (env : Env) (cmd : Cmd) (args : List String) (s : State) : Outcome :=
  if args.length = 0 then
    ⟨some (Error.errorf "requires at least 1 argument"), s⟩
  else
    let images := args
    let saveOpts : List ExportOpt := []
    if images.length = 0 then
      ⟨some (Error.errorf "requires at least 1 argument"), s⟩
    else
      let s := s.log Event.outOrStdout
      let out := cmd.OutOrStdout
      let s := s.log (Event.getString "output")
      match cmd.GetString "output" with
      | Except.error e => ⟨some (Error.external e), s⟩
      | Except.ok output =>
        if output ≠ "" then
          let s := s.log (Event.openFile output)
          match env.OpenFile output with
          | some e => ⟨some (Error.external e), s⟩
          | none =>
            let s := s.openFile output
            let out := Writer.file output
            let r := saveImage env images out saveOpts cmd s
            ⟨r.result, r.state.log (Event.close output)⟩
        else
          let s := s.log Event.isTerminal
          if env.stdoutIsTerminal then
            ⟨some (Error.errorf
              "cowardly refusing to save to a terminal. Use the -o flag or redirect"), s⟩
          else
            saveImage env images out saveOpts cmd s

/-! ## `run_linux.go` -/

/-- Go's `strings.HasPrefix`. -/
def HasPrefix (s pre : String) : Bool :=
  pre.data.isPrefixOf s.data

/-- Go's `strings.TrimPrefix`: `s` without the leading `pre`, or `s` itself. -/
def TrimPrefix (s pre : String) : String :=
  if HasPrefix s pre then String.mk (s.data.drop pre.data.length) else s

/-- Go's `strings.ToLower`, each rune mapped by `unicode.ToLower`, which is the
parameter `lower`. -/
def ToLower (lower : Char → Char) (s : String) : String :=
  String.mk (s.data.map lower)

/-- Cobra's `ShellCompDirective` bit field. -/
abbrev ShellCompDirective := Nat

/-- Cobra's `ShellCompDirectiveNoFileComp`, the third bit. -/
def ShellCompDirectiveNoFileComp : ShellCompDirective := 4

/-- The loop of `capShellComplete` (lines 35-39) over the names still to visit,
`candidates` being the slice built so far. -/
def capLoop (lower : Char → Char) : List String → List String → List String
  | [], candidates => candidates
  | c :: rest, candidates =>
    let s := ToLower lower (TrimPrefix c "CAP_")
    capLoop lower rest (candidates ++ [s])

/-- The function `capShellComplete` of `run_linux.go` (lines 33-41); `known` is
the slice returned by `cap.Known()`. -/
def capShellComplete (lower : Char → Char) (known : List String)
    (_cmd : Cmd) (_args : List String) (_toComplete : String) :
    List String × ShellCompDirective :=
  (capLoop lower known [], ShellCompDirectiveNoFileComp)

/-! ## Reading a trace -/

/-- The events a call added to the trace it started from. -/
def Outcome.events (r : Outcome) (s : State) : List Event :=
  r.state.trace.drop s.trace.length

/-- The calls of `saveImage` in a trace, with their arguments. -/
def saveImageCalls : List Event → List (List String × Writer × List ExportOpt)
  | [] => []
  | Event.saveImage images out saveOpts :: rest => (images, out, saveOpts) :: saveImageCalls rest
  | _ :: rest => saveImageCalls rest

/-- The calls of `client.Export` in a trace: the writer and the option list. -/
def exportCalls : List Event → List (Writer × List ExportOpt)
  | [] => []
  | Event.export out opts :: rest => (out, opts) :: exportCalls rest
  | _ :: rest => exportCalls rest

/-- The strings handed to `refdocker.ParseDockerRef` in a trace, in order. -/
def parsedRefs : List Event → List String
  | [] => []
  | Event.parseDockerRef img :: rest => img :: parsedRefs rest
  | _ :: rest => parsedRefs rest

/-- The bytes handed to `Write` in a trace, in order, whatever the writer. -/
def writtenBytes : List Event → List Byte
  | [] => []
  | Event.write _ bs :: rest => bs ++ writtenBytes rest
  | _ :: rest => writtenBytes rest

/-- Whether a trace holds the terminal check `isatty.IsTerminal(os.Stdout.Fd())`. -/
def checksTerminal : List Event → Bool
  | [] => false
  | Event.isTerminal :: _ => true
  | _ :: rest => checksTerminal rest

/-- The names carried by the `WithImage` options of an option list, in order. -/
def imageOptions : List ExportOpt → List String
  | [] => []
  | ExportOpt.WithImage _ name :: rest => name :: imageOptions rest
  | ExportOpt.WithPlatform _ :: rest => imageOptions rest

/-- The platforms carried by the `WithPlatform` options of an option list. -/
def platformOptions : List ExportOpt → List Platform
  | [] => []
  | ExportOpt.WithPlatform p :: rest => p :: platformOptions rest
  | ExportOpt.WithImage _ _ :: rest => platformOptions rest

/-- Whether the sink `cmd.OutOrStdout()` is an interactive terminal. -/
def sinkIsTerminal (env : Env) (cmd : Cmd) : Bool :=
  match cmd.OutOrStdout with
  | Writer.stdout => env.stdoutIsTerminal
  | Writer.setOut _ tty => tty
  | Writer.file _ => false

/-- The canonical string `named.String()` of an image string the parser
accepts (the empty string stands for a rejected one). -/
def canonical (env : Env) (img : String) : String :=
  match env.ParseDockerRef img with
  | Except.ok named => named.String
  | Except.error _ => ""

/-- The error of the first image string the parser rejects, if any. -/
def firstError (env : Env) : List String → Option ExtError
  | [] => none
  | img :: rest =>
    match env.ParseDockerRef img with
    | Except.error e => some e
    | Except.ok _ => firstError env rest

/-- The image strings up to and including the first one the parser rejects. -/
def parsedPrefix (env : Env) : List String → List String
  | [] => []
  | img :: rest =>
    match env.ParseDockerRef img with
    | Except.error _ => [img]
    | Except.ok _ => img :: parsedPrefix env rest

/-- The option list `saveImage` hands to `client.Export` when every string
parses: the options it was given, the default platform, one image each. -/
def exportOpts (env : Env) (client : Client) (images : List String)
    (saveOpts : List ExportOpt) : List ExportOpt :=
  saveOpts ++ [ExportOpt.WithPlatform env.DefaultStrict]
    ++ images.map (fun img => ExportOpt.WithImage client.ImageService (canonical env img))

/-- The state in which `saveAction` calls `saveImage` after opening `output`. -/
def afterOpen (s : State) (output : String) : State :=
  State.openFile
    { s with trace := s.trace ++
        [Event.outOrStdout, Event.getString "output", Event.openFile output] } output

/-- The state in which `saveAction` calls `saveImage` on the command's writer. -/
def afterCheck (s : State) : State :=
  { s with trace := s.trace ++
      [Event.outOrStdout, Event.getString "output", Event.isTerminal] }

/-! ## Concrete collaborators -/

/-- A reference parser for the examples: four strings are accepted, two of
them with the same canonical string, everything else is rejected. -/
def demoParse (img : String) : Except ExtError Named :=
  if img = "alpine" then Except.ok ⟨"docker.io/library/alpine:latest"⟩
  else if img = "alpine:latest" then Except.ok ⟨"docker.io/library/alpine:latest"⟩
  else if img = "busybox" then Except.ok ⟨"docker.io/library/busybox:latest"⟩
  else if img = "nginx" then Except.ok ⟨"docker.io/library/nginx:latest"⟩
  else Except.error ⟨"invalid reference format"⟩

/-- An exporter for the examples: it writes two chunks and succeeds, except
that an export naming busybox fails after the first chunk, and an export naming
nginx writes its whole output, the last chunk included, and then reports an
error. -/
def demoExport (_client : Client) (_out : Writer) (opts : List ExportOpt) :
    List (List Byte) × Option ExtError :=
  if "docker.io/library/busybox:latest" ∈ imageOptions opts then
    ([[1, 2]], some ⟨"content digest not found"⟩)
  else if "docker.io/library/nginx:latest" ∈ imageOptions opts then
    ([[1, 2], [105, 110, 100, 101, 120]], some ⟨"close: input/output error"⟩)
  else ([[1, 2], [3]], none)

/-- Collaborators for the examples: whether `os.Stdout` is a terminal, whether
containerd can be reached, and the one path that cannot be opened. -/
def demoEnv (tty up : Bool) : Env where
  stdoutIsTerminal := tty
  OpenFile := fun path => if path = "/proc/out.tar" then some ⟨"permission denied"⟩ else none
  newClient := fun _ =>
    if up then Except.ok ⟨0⟩ else Except.error ⟨"cannot access containerd socket"⟩
  ParseDockerRef := demoParse
  DefaultStrict := 0
  Export := demoExport

/-- A command for the examples: the writer installed with `SetOut`, if any, and
the value of its one flag, `--output`. -/
def demoCmd (writer : Option (Nat × Bool)) (output : String) : Cmd where
  outWriter := writer
  GetString := fun flag =>
    if flag = "output" then Except.ok output
    else Except.error ⟨"flag accessed but not defined"⟩

/-- A state for the examples: the file `out.tar` holds `old` (or is missing),
no other file exists and nothing has been written or called. -/
def demoState (old : Option (List Byte)) : State where
  files := fun path => if path = "out.tar" then old else none
  pos := fun _ => 0
  stdout := []
  others := fun _ => []
  trace := []

/-- The parsed reference the example parser gives a string it accepts. -/
def demoNamed (img : String) : Named :=
  match demoParse img with
  | Except.ok named => named
  | Except.error _ => ⟨""⟩

/-! ## Lemmas on traces -/

@[simp] theorem saveImageCalls_append (a b : List Event) :
    saveImageCalls (a ++ b) = saveImageCalls a ++ saveImageCalls b := by
  induction a with
  | nil => rfl
  | cons e rest ih => cases e <;> simp [saveImageCalls, ih]

@[simp] theorem exportCalls_append (a b : List Event) :
    exportCalls (a ++ b) = exportCalls a ++ exportCalls b := by
  induction a with
  | nil => rfl
  | cons e rest ih => cases e <;> simp [exportCalls, ih]

@[simp] theorem parsedRefs_append (a b : List Event) :
    parsedRefs (a ++ b) = parsedRefs a ++ parsedRefs b := by
  induction a with
  | nil => rfl
  | cons e rest ih => cases e <;> simp [parsedRefs, ih]

@[simp] theorem writtenBytes_append (a b : List Event) :
    writtenBytes (a ++ b) = writtenBytes a ++ writtenBytes b := by
  induction a with
  | nil => rfl
  | cons e rest ih => cases e <;> simp [writtenBytes, ih]

@[simp] theorem checksTerminal_append (a b : List Event) :
    checksTerminal (a ++ b) = (checksTerminal a || checksTerminal b) := by
  induction a with
  | nil => rfl
  | cons e rest ih => cases e <;> simp [checksTerminal, ih]

@[simp] theorem saveImageCalls_parse (l : List String) :
    saveImageCalls (l.map Event.parseDockerRef) = [] := by
  induction l with
  | nil => rfl
  | cons e rest ih => simp [saveImageCalls, ih]

@[simp] theorem exportCalls_parse (l : List String) :
    exportCalls (l.map Event.parseDockerRef) = [] := by
  induction l with
  | nil => rfl
  | cons e rest ih => simp [exportCalls, ih]

@[simp] theorem parsedRefs_parse (l : List String) :
    parsedRefs (l.map Event.parseDockerRef) = l := by
  induction l with
  | nil => rfl
  | cons e rest ih => simp [parsedRefs, ih]

@[simp] theorem writtenBytes_parse (l : List String) :
    writtenBytes (l.map Event.parseDockerRef) = [] := by
  induction l with
  | nil => rfl
  | cons e rest ih => simp [writtenBytes, ih]

@[simp] theorem checksTerminal_parse (l : List String) :
    checksTerminal (l.map Event.parseDockerRef) = false := by
  induction l with
  | nil => rfl
  | cons e rest ih => simp [checksTerminal, ih]

@[simp] theorem saveImageCalls_write (out : Writer) (l : List (List Byte)) :
    saveImageCalls (l.map (Event.write out)) = [] := by
  induction l with
  | nil => rfl
  | cons e rest ih => simp [saveImageCalls, ih]

@[simp] theorem exportCalls_write (out : Writer) (l : List (List Byte)) :
    exportCalls (l.map (Event.write out)) = [] := by
  induction l with
  | nil => rfl
  | cons e rest ih => simp [exportCalls, ih]

@[simp] theorem parsedRefs_write (out : Writer) (l : List (List Byte)) :
    parsedRefs (l.map (Event.write out)) = [] := by
  induction l with
  | nil => rfl
  | cons e rest ih => simp [parsedRefs, ih]

@[simp] theorem writtenBytes_write (out : Writer) (l : List (List Byte)) :
    writtenBytes (l.map (Event.write out)) = l.flatten := by
  induction l with
  | nil => rfl
  | cons e rest ih => simp [writtenBytes, ih]

@[simp] theorem checksTerminal_write (out : Writer) (l : List (List Byte)) :
    checksTerminal (l.map (Event.write out)) = false := by
  induction l with
  | nil => rfl
  | cons e rest ih => simp [checksTerminal, ih]

@[simp] theorem imageOptions_append (a b : List ExportOpt) :
    imageOptions (a ++ b) = imageOptions a ++ imageOptions b := by
  induction a with
  | nil => rfl
  | cons e rest ih => cases e <;> simp [imageOptions, ih]

@[simp] theorem platformOptions_append (a b : List ExportOpt) :
    platformOptions (a ++ b) = platformOptions a ++ platformOptions b := by
  induction a with
  | nil => rfl
  | cons e rest ih => cases e <;> simp [platformOptions, ih]

@[simp] theorem imageOptions_withImage (store : ImageStore) (f : String → String)
    (l : List String) :
    imageOptions (l.map (fun img => ExportOpt.WithImage store (f img))) = l.map f := by
  induction l with
  | nil => rfl
  | cons e rest ih => simp [imageOptions, ih]

@[simp] theorem platformOptions_withImage (store : ImageStore) (f : String → String)
    (l : List String) :
    platformOptions (l.map (fun img => ExportOpt.WithImage store (f img))) = [] := by
  induction l with
  | nil => rfl
  | cons e rest ih => simp [platformOptions, ih]

/-! ## Lemmas on the steps of `saveImage` -/

/-- The loop of `saveImage` in closed form: its result is the first parse error,
or the options with one `WithImage` appended per image, and it only extends the
trace, by one parse per string up to the first rejected one. -/
theorem parseRefs_eq (env : Env) (store : ImageStore) (images : List String)
    (saveOpts : List ExportOpt) (s : State) :
    parseRefs env store images saveOpts s =
      ((match firstError env images with
        | some e => Except.error (Error.external e)
        | none => Except.ok
            (saveOpts ++ images.map (fun img => ExportOpt.WithImage store (canonical env img)))),
       { s with trace := s.trace ++ (parsedPrefix env images).map Event.parseDockerRef }) := by
  induction images generalizing saveOpts s with
  | nil => simp [parseRefs, firstError, parsedPrefix]
  | cons img rest ih =>
    cases h : env.ParseDockerRef img with
    | error e => simp [parseRefs, firstError, parsedPrefix, h, State.log]
    | ok named =>
      simp [parseRefs, firstError, parsedPrefix, h, State.log, ih, canonical]

/-- Writing chunks extends the trace by one `write` per chunk. -/
theorem writeAll_trace (out : Writer) (chunks : List (List Byte)) (s : State) :
    (s.writeAll out chunks).trace = s.trace ++ chunks.map (Event.write out) := by
  induction chunks generalizing s with
  | nil => simp [State.writeAll]
  | cons bs rest ih =>
    simp only [State.writeAll, ih, List.map_cons]
    cases out with
    | stdout => simp [State.write, State.log]
    | setOut id tty => simp [State.write, State.log]
    | file path =>
      simp only [State.write, State.log]
      split <;> simp

/-- Writing at the end of the part already written: the new bytes follow it
and replace as many of the bytes that lay beyond. -/
theorem writeAt_prefix (A X bs : List Byte) :
    writeAt (A ++ X) A.length bs = A ++ bs ++ X.drop bs.length := by
  simp [writeAt]

/-- Chunks written to a file from the end of the part `A` already written, over
old contents `P`: afterwards the file holds everything written followed by what
`P` had beyond that length. -/
theorem writeAll_file (path : String) (P : List Byte) (chunks : List (List Byte))
    (A : List Byte) (s : State)
    (hfile : s.files path = some (A ++ P.drop A.length)) (hpos : s.pos path = A.length) :
    (s.writeAll (Writer.file path) chunks).files path =
      some ((A ++ chunks.flatten) ++ P.drop (A ++ chunks.flatten).length) := by
  induction chunks generalizing A s with
  | nil => simpa [State.writeAll] using hfile
  | cons bs rest ih =>
    simp only [State.writeAll]
    have h := ih (A ++ bs) (s.write (Writer.file path) bs)
      (by simp [State.write, State.log, hfile, hpos, writeAt_prefix, Nat.add_comm])
      (by simp [State.write, State.log, hfile, hpos])
    simpa [List.append_assoc] using h

/-- The call `saveImage` when `newClient` fails: its error is returned at once. -/
theorem saveImage_client_error (env : Env) (images : List String) (out : Writer)
    (saveOpts : List ExportOpt) (cmd : Cmd) (s : State) (e : ExtError)
    (hclient : env.newClient cmd = Except.error e) :
    saveImage env images out saveOpts cmd s =
      ⟨some (Error.external e),
        { s with trace := s.trace ++ [Event.saveImage images out saveOpts, Event.newClient] }⟩ := by
  simp [saveImage, hclient, State.log]

/-- The call `saveImage` when the parser rejects a string: the first such error
is returned after the parses up to that string, and nothing else happens. -/
theorem saveImage_parse_error (env : Env) (images : List String) (out : Writer)
    (saveOpts : List ExportOpt) (cmd : Cmd) (s : State) (client : Client) (e : ExtError)
    (hclient : env.newClient cmd = Except.ok client)
    (hfirst : firstError env images = some e) :
    saveImage env images out saveOpts cmd s =
      ⟨some (Error.external e),
        { s with trace := s.trace ++ ([Event.saveImage images out saveOpts, Event.newClient]
            ++ (parsedPrefix env images).map Event.parseDockerRef ++ [Event.cancel]) }⟩ := by
  simp [saveImage, hclient, State.log, parseRefs_eq, hfirst]

/-- The call `saveImage` when the client is created and every string parses:
`Export` is called once, its chunks are written to `out`, its result returned. -/
theorem saveImage_export (env : Env) (images : List String) (out : Writer)
    (saveOpts : List ExportOpt) (cmd : Cmd) (s : State) (client : Client)
    (hclient : env.newClient cmd = Except.ok client)
    (hfirst : firstError env images = none) :
    saveImage env images out saveOpts cmd s =
      ⟨(env.Export client out (exportOpts env client images saveOpts)).2.map Error.external,
        (State.writeAll
          { s with trace := s.trace ++ ([Event.saveImage images out saveOpts, Event.newClient]
            ++ (parsedPrefix env images).map Event.parseDockerRef
            ++ [Event.export out (exportOpts env client images saveOpts)]) }
          out (env.Export client out (exportOpts env client images saveOpts)).1).log
          Event.cancel⟩ := by
  simp [saveImage, hclient, State.log, parseRefs_eq, hfirst, exportOpts]

/-- No string is rejected exactly when every string of the list parses. -/
theorem firstError_none (env : Env) (images : List String) :
    firstError env images = none ↔
      ∀ img ∈ images, ∃ named, env.ParseDockerRef img = Except.ok named := by
  induction images with
  | nil => simp [firstError]
  | cons img rest ih =>
    cases h : env.ParseDockerRef img with
    | error e => simp [firstError, h]
    | ok named => simp [firstError, h, ih]

/-- The first rejected string decides the error and where parsing stops. -/
theorem firstError_split (env : Env) (accepted rest : List String) (bad : String)
    (e : ExtError)
    (hacc : ∀ img ∈ accepted, ∃ named, env.ParseDockerRef img = Except.ok named)
    (hbad : env.ParseDockerRef bad = Except.error e) :
    firstError env (accepted ++ bad :: rest) = some e ∧
      parsedPrefix env (accepted ++ bad :: rest) = accepted ++ [bad] := by
  induction accepted with
  | nil => simp [firstError, parsedPrefix, hbad]
  | cons img more ih =>
    obtain ⟨named, h⟩ := hacc img (by simp)
    have ih := ih (fun i hi => hacc i (by simp [hi]))
    simp [firstError, parsedPrefix, h, ih.1, ih.2]

/-! ## Lemmas on whole calls -/

/-- A call of `saveImage` is the only one in the events it adds. -/
theorem saveImage_calls (env : Env) (images : List String) (out : Writer)
    (saveOpts : List ExportOpt) (cmd : Cmd) (s : State) :
    saveImageCalls ((saveImage env images out saveOpts cmd s).events s) =
      [(images, out, saveOpts)] := by
  cases hclient : env.newClient cmd with
  | error e =>
    rw [saveImage_client_error env images out saveOpts cmd s e hclient]
    simp [Outcome.events, saveImageCalls]
  | ok client =>
    cases hfirst : firstError env images with
    | some e =>
      rw [saveImage_parse_error env images out saveOpts cmd s client e hclient hfirst]
      simp [Outcome.events, saveImageCalls]
    | none =>
      rw [saveImage_export env images out saveOpts cmd s client hclient hfirst]
      simp [Outcome.events, State.log, writeAll_trace, saveImageCalls]

/-- When the client is created and every string parses, `Export` is called
exactly once, with the options of `exportOpts`. -/
theorem saveImage_export_calls (env : Env) (images : List String) (out : Writer)
    (saveOpts : List ExportOpt) (cmd : Cmd) (s : State) (client : Client)
    (hclient : env.newClient cmd = Except.ok client)
    (hfirst : firstError env images = none) :
    exportCalls ((saveImage env images out saveOpts cmd s).events s) =
      [(out, exportOpts env client images saveOpts)] := by
  rw [saveImage_export env images out saveOpts cmd s client hclient hfirst]
  simp [Outcome.events, State.log, writeAll_trace, exportCalls]

/-- The canonical string of a string the parser accepts. -/
theorem canonical_of_ok (env : Env) (img : String) (named : Named)
    (h : env.ParseDockerRef img = Except.ok named) : canonical env img = named.String := by
  simp [canonical, h]

/-- A call of `saveImage` only extends the trace. -/
theorem saveImage_trace (env : Env) (images : List String) (out : Writer)
    (saveOpts : List ExportOpt) (cmd : Cmd) (s : State) :
    (saveImage env images out saveOpts cmd s).state.trace =
      s.trace ++ (saveImage env images out saveOpts cmd s).events s := by
  cases hclient : env.newClient cmd with
  | error e =>
    rw [saveImage_client_error env images out saveOpts cmd s e hclient]
    simp [Outcome.events]
  | ok client =>
    cases hfirst : firstError env images with
    | some e =>
      rw [saveImage_parse_error env images out saveOpts cmd s client e hclient hfirst]
      simp [Outcome.events]
    | none =>
      rw [saveImage_export env images out saveOpts cmd s client hclient hfirst]
      simp [Outcome.events, State.log, writeAll_trace]

/-- An error returned by `saveImage` is a collaborator's, never one built with
`errors.Errorf`. -/
theorem saveImage_result_external (env : Env) (images : List String) (out : Writer)
    (saveOpts : List ExportOpt) (cmd : Cmd) (s : State) (msg : String) :
    (saveImage env images out saveOpts cmd s).result ≠ some (Error.errorf msg) := by
  cases hclient : env.newClient cmd with
  | error e =>
    rw [saveImage_client_error env images out saveOpts cmd s e hclient]
    simp
  | ok client =>
    cases hfirst : firstError env images with
    | some e =>
      rw [saveImage_parse_error env images out saveOpts cmd s client e hclient hfirst]
      simp
    | none =>
      rw [saveImage_export env images out saveOpts cmd s client hclient hfirst]
      cases (env.Export client out (exportOpts env client images saveOpts)).2 <;> simp

/-- The call `saveAction` without arguments returns at once. -/
theorem saveAction_no_args (env : Env) (cmd : Cmd) (s : State) :
    saveAction env cmd [] s = ⟨some (Error.errorf "requires at least 1 argument"), s⟩ := by
  simp [saveAction]

/-- The call `saveAction` when the flag cannot be read. -/
theorem saveAction_flag_error (env : Env) (cmd : Cmd) (args : List String) (s : State)
    (e : ExtError) (hargs : args ≠ [])
    (hflag : cmd.GetString "output" = Except.error e) :
    saveAction env cmd args s =
      ⟨some (Error.external e),
        { s with trace := s.trace ++ [Event.outOrStdout, Event.getString "output"] }⟩ := by
  simp [saveAction, hargs, hflag, State.log]

/-- The call `saveAction` when the output file cannot be opened. -/
theorem saveAction_open_error (env : Env) (cmd : Cmd) (args : List String) (s : State)
    (output : String) (e : ExtError) (hargs : args ≠ [])
    (hflag : cmd.GetString "output" = Except.ok output) (hout : output ≠ "")
    (hopen : env.OpenFile output = some e) :
    saveAction env cmd args s =
      ⟨some (Error.external e),
        { s with trace := s.trace ++
            [Event.outOrStdout, Event.getString "output", Event.openFile output] }⟩ := by
  simp [saveAction, hargs, hflag, hout, hopen, State.log]

/-- The call `saveAction` when the output file is opened: `saveImage` runs on
that file, which is closed afterwards. -/
theorem saveAction_file (env : Env) (cmd : Cmd) (args : List String) (s : State)
    (output : String) (hargs : args ≠ [])
    (hflag : cmd.GetString "output" = Except.ok output) (hout : output ≠ "")
    (hopen : env.OpenFile output = none) :
    saveAction env cmd args s =
      ⟨(saveImage env args (Writer.file output) [] cmd (afterOpen s output)).result,
        (saveImage env args (Writer.file output) [] cmd (afterOpen s output)).state.log
          (Event.close output)⟩ := by
  simp [saveAction, hargs, hflag, hout, hopen, State.log, afterOpen]

/-- The call `saveAction` without an output path when `os.Stdout` is a terminal. -/
theorem saveAction_terminal (env : Env) (cmd : Cmd) (args : List String) (s : State)
    (hargs : args ≠ []) (hflag : cmd.GetString "output" = Except.ok "")
    (htty : env.stdoutIsTerminal = true) :
    saveAction env cmd args s =
      ⟨some (Error.errorf "cowardly refusing to save to a terminal. Use the -o flag or redirect"),
        afterCheck s⟩ := by
  simp [saveAction, hargs, hflag, htty, State.log, afterCheck]

/-- The call `saveAction` without an output path when `os.Stdout` is no
terminal: `saveImage` runs on the command's writer. -/
theorem saveAction_stream (env : Env) (cmd : Cmd) (args : List String) (s : State)
    (hargs : args ≠ []) (hflag : cmd.GetString "output" = Except.ok "")
    (htty : env.stdoutIsTerminal = false) :
    saveAction env cmd args s =
      saveImage env args cmd.OutOrStdout [] cmd (afterCheck s) := by
  simp [saveAction, hargs, hflag, htty, State.log, afterCheck]

/-- The events of `saveAction` when it saves to a file it opened. -/
theorem saveAction_file_events (env : Env) (cmd : Cmd) (args : List String) (s : State)
    (output : String) (hargs : args ≠ [])
    (hflag : cmd.GetString "output" = Except.ok output) (hout : output ≠ "")
    (hopen : env.OpenFile output = none) :
    (saveAction env cmd args s).events s =
      [Event.outOrStdout, Event.getString "output", Event.openFile output]
        ++ (saveImage env args (Writer.file output) [] cmd (afterOpen s output)).events
            (afterOpen s output)
        ++ [Event.close output] := by
  rw [saveAction_file env cmd args s output hargs hflag hout hopen, Outcome.events]
  simp only [State.log]
  rw [saveImage_trace env args (Writer.file output) [] cmd (afterOpen s output)]
  simp [afterOpen, State.openFile]

/-- The events of `saveAction` when it saves to the command's writer. -/
theorem saveAction_stream_events (env : Env) (cmd : Cmd) (args : List String) (s : State)
    (hargs : args ≠ []) (hflag : cmd.GetString "output" = Except.ok "")
    (htty : env.stdoutIsTerminal = false) :
    (saveAction env cmd args s).events s =
      [Event.outOrStdout, Event.getString "output", Event.isTerminal]
        ++ (saveImage env args cmd.OutOrStdout [] cmd (afterCheck s)).events (afterCheck s) := by
  rw [saveAction_stream env cmd args s hargs hflag htty, Outcome.events]
  rw [saveImage_trace env args cmd.OutOrStdout [] cmd (afterCheck s)]
  simp [afterCheck]

/-- A call of `saveImage` never runs the terminal check. -/
theorem saveImage_no_check (env : Env) (images : List String) (out : Writer)
    (saveOpts : List ExportOpt) (cmd : Cmd) (s : State) :
    checksTerminal ((saveImage env images out saveOpts cmd s).events s) = false := by
  cases hclient : env.newClient cmd with
  | error e =>
    rw [saveImage_client_error env images out saveOpts cmd s e hclient]
    simp [Outcome.events, checksTerminal]
  | ok client =>
    cases hfirst : firstError env images with
    | some e =>
      rw [saveImage_parse_error env images out saveOpts cmd s client e hclient hfirst]
      simp [Outcome.events, checksTerminal]
    | none =>
      rw [saveImage_export env images out saveOpts cmd s client hclient hfirst]
      simp [Outcome.events, State.log, writeAll_trace, checksTerminal]

/-- The loop of `saveImage` does not read whether `os.Stdout` is a terminal. -/
theorem parseRefs_tty (env : Env) (tty : Bool) (store : ImageStore) (images : List String)
    (saveOpts : List ExportOpt) (s : State) :
    parseRefs { env with stdoutIsTerminal := tty } store images saveOpts s =
      parseRefs env store images saveOpts s := by
  induction images generalizing saveOpts s with
  | nil => rfl
  | cons img rest ih => simp only [parseRefs, ih]

/-- The call `saveImage` does not read whether `os.Stdout` is a terminal. -/
theorem saveImage_tty (env : Env) (tty : Bool) (images : List String) (out : Writer)
    (saveOpts : List ExportOpt) (cmd : Cmd) (s : State) :
    saveImage { env with stdoutIsTerminal := tty } images out saveOpts cmd s =
      saveImage env images out saveOpts cmd s := by
  simp only [saveImage, parseRefs_tty]

/-- The events of `saveImage` when the client is created and every string
parses: the parses, the one `Export`, its writes, the deferred `cancel`. -/
theorem saveImage_export_events (env : Env) (images : List String) (out : Writer)
    (saveOpts : List ExportOpt) (cmd : Cmd) (s : State) (client : Client)
    (hclient : env.newClient cmd = Except.ok client)
    (hfirst : firstError env images = none) :
    (saveImage env images out saveOpts cmd s).events s =
      [Event.saveImage images out saveOpts, Event.newClient]
        ++ (parsedPrefix env images).map Event.parseDockerRef
        ++ [Event.export out (exportOpts env client images saveOpts)]
        ++ (env.Export client out (exportOpts env client images saveOpts)).1.map (Event.write out)
        ++ [Event.cancel] := by
  rw [saveImage_export env images out saveOpts cmd s client hclient hfirst]
  simp [Outcome.events, State.log, writeAll_trace]

/-- The file `saveAction` opened, as `saveImage` finds it: its old contents,
or nothing when it was missing. -/
theorem afterOpen_files (s : State) (output : String) :
    (afterOpen s output).files output = some ((s.files output).getD []) := by
  cases h : s.files output <;> simp [afterOpen, State.openFile, h]

/-- The descriptor `saveAction` opened starts at offset 0. -/
theorem afterOpen_pos (s : State) (output : String) :
    (afterOpen s output).pos output = 0 := by
  simp [afterOpen, State.openFile]

/-- The file after a run of `saveImage` that reached `Export`, on a descriptor
at offset 0 over contents `P`: the chunks, then what `P` had beyond them. -/
theorem saveImage_export_file (env : Env) (images : List String) (path : String)
    (saveOpts : List ExportOpt) (cmd : Cmd) (s : State) (client : Client) (P : List Byte)
    (hclient : env.newClient cmd = Except.ok client)
    (hfirst : firstError env images = none)
    (hfile : s.files path = some P) (hpos : s.pos path = 0) :
    (saveImage env images (Writer.file path) saveOpts cmd s).state.files path =
      some ((env.Export client (Writer.file path)
              (exportOpts env client images saveOpts)).1.flatten
        ++ P.drop (env.Export client (Writer.file path)
              (exportOpts env client images saveOpts)).1.flatten.length) := by
  rw [saveImage_export env images (Writer.file path) saveOpts cmd s client hclient hfirst]
  simp only [State.log]
  have h := writeAll_file path P
    (env.Export client (Writer.file path) (exportOpts env client images saveOpts)).1 []
    { s with trace := s.trace ++ ([Event.saveImage images (Writer.file path) saveOpts,
        Event.newClient] ++ (parsedPrefix env images).map Event.parseDockerRef
        ++ [Event.export (Writer.file path) (exportOpts env client images saveOpts)]) }
    (by simpa using hfile) (by simpa using hpos)
  simpa using h

/-- With no writer installed on the command the sink is `os.Stdout`, and the
guard of `saveAction` protects it: with at least one argument and an empty
`--output`, a terminal sink makes `saveAction` return the refusal error without
calling `saveImage` or writing a byte. -/
theorem saveAction_default_sink_refused (env : Env) (cmd : Cmd) (args : List String)
    (s : State) (hargs : args ≠ []) (hflag : cmd.GetString "output" = Except.ok "")
    (hnone : cmd.outWriter = none) (htty : sinkIsTerminal env cmd = true) :
    (saveAction env cmd args s).result = some (Error.errorf
        "cowardly refusing to save to a terminal. Use the -o flag or redirect") ∧
      saveImageCalls ((saveAction env cmd args s).events s) = [] ∧
      writtenBytes ((saveAction env cmd args s).events s) = [] ∧
      (saveAction env cmd args s).state.stdout = s.stdout := by
  have hstd : env.stdoutIsTerminal = true := by
    simpa [sinkIsTerminal, Cmd.OutOrStdout, hnone] using htty
  rw [saveAction_terminal env cmd args s hargs hflag hstd]
  simp [Outcome.events, afterCheck, saveImageCalls, writtenBytes]

/-! ## The claims about `saveImage` -/

/-- C2, as stated, fails: with containerd unreachable, `saveImage` on a list
whose only string the parser rejects returns the error of `newClient`, not the
parser's error, and parses nothing. -/
theorem saveImage_client_error_masks_parse_error :
    (demoEnv false false).ParseDockerRef "Bad Ref" =
        Except.error ⟨"invalid reference format"⟩ ∧
      (saveImage (demoEnv false false) ["Bad Ref"] Writer.stdout [] (demoCmd none "")
        (demoState none)).result = some (Error.external ⟨"cannot access containerd socket"⟩) ∧
      (saveImage (demoEnv false false) ["Bad Ref"] Writer.stdout [] (demoCmd none "")
        (demoState none)).result ≠ some (Error.external ⟨"invalid reference format"⟩) ∧
      parsedRefs (saveImage (demoEnv false false) ["Bad Ref"] Writer.stdout []
        (demoCmd none "") (demoState none)).state.trace = [] := by
  refine ⟨rfl, by decide, by decide, by decide⟩

/-- C2, amended: for a list whose first rejected string is `bad` (every string
before it parses), `saveImage` returns the parser's error for `bad` unchanged
and parses exactly the strings up to `bad` when `newClient` succeeds, and it
returns the error of `newClient` and parses nothing when that fails; either way
`client.Export` is never called and no byte is written to any writer. -/
theorem saveImage_first_parse_error (env : Env) (accepted rest : List String) (bad : String)
    (out : Writer) (saveOpts : List ExportOpt) (cmd : Cmd) (s : State) (e : ExtError)
    (hacc : ∀ img ∈ accepted, ∃ named, env.ParseDockerRef img = Except.ok named)
    (hbad : env.ParseDockerRef bad = Except.error e) :
    (∀ client, env.newClient cmd = Except.ok client →
        (saveImage env (accepted ++ bad :: rest) out saveOpts cmd s).result
            = some (Error.external e) ∧
          parsedRefs ((saveImage env (accepted ++ bad :: rest) out saveOpts cmd s).events s)
            = accepted ++ [bad]) ∧
      (∀ e', env.newClient cmd = Except.error e' →
        (saveImage env (accepted ++ bad :: rest) out saveOpts cmd s).result
            = some (Error.external e') ∧
          parsedRefs ((saveImage env (accepted ++ bad :: rest) out saveOpts cmd s).events s)
            = []) ∧
      exportCalls ((saveImage env (accepted ++ bad :: rest) out saveOpts cmd s).events s) = [] ∧
      writtenBytes ((saveImage env (accepted ++ bad :: rest) out saveOpts cmd s).events s) = [] ∧
      (saveImage env (accepted ++ bad :: rest) out saveOpts cmd s).state.files = s.files ∧
      (saveImage env (accepted ++ bad :: rest) out saveOpts cmd s).state.stdout = s.stdout ∧
      (saveImage env (accepted ++ bad :: rest) out saveOpts cmd s).state.others = s.others := by
  obtain ⟨hfirst, hpre⟩ := firstError_split env accepted rest bad e hacc hbad
  cases hclient : env.newClient cmd with
  | error e' =>
    rw [saveImage_client_error env _ out saveOpts cmd s e' hclient]
    simp [Outcome.events, parsedRefs, exportCalls, writtenBytes]
  | ok client =>
    rw [saveImage_parse_error env _ out saveOpts cmd s client e hclient hfirst, hpre]
    simp [Outcome.events, parsedRefs, exportCalls, writtenBytes]

/-- C2, amended, at a concrete input: `alpine` parses, `Bad Ref` is rejected and
`busybox` is never parsed. -/
theorem saveImage_first_parse_error_witness :
    ((∀ client, (demoEnv false true).newClient (demoCmd none "") = Except.ok client →
        (saveImage (demoEnv false true) (["alpine"] ++ "Bad Ref" :: ["busybox"]) Writer.stdout []
            (demoCmd none "") (demoState none)).result
            = some (Error.external ⟨"invalid reference format"⟩) ∧
          parsedRefs ((saveImage (demoEnv false true) (["alpine"] ++ "Bad Ref" :: ["busybox"])
            Writer.stdout [] (demoCmd none "") (demoState none)).events (demoState none))
            = ["alpine"] ++ ["Bad Ref"])) ∧
      (demoEnv false true).newClient (demoCmd none "") = Except.ok ⟨0⟩ :=
  ⟨(saveImage_first_parse_error (demoEnv false true) ["alpine"] ["busybox"] "Bad Ref"
      Writer.stdout [] (demoCmd none "") (demoState none) ⟨"invalid reference format"⟩
      (by intro img himg
          simp only [List.mem_singleton] at himg
          subst himg
          exact ⟨⟨"docker.io/library/alpine:latest"⟩, rfl⟩)
      rfl).1, rfl⟩

/-- C3: when the client is created and every string parses, `saveImage` calls
`client.Export` once, and the `WithImage` options of that call are one per
requested image, in request order, the i-th carrying the canonical string
`named.String()` of the i-th parsed reference; so every requested image has its
option in the request. -/
theorem saveImage_export_images (env : Env) (images : List String) (out : Writer)
    (saveOpts : List ExportOpt) (cmd : Cmd) (s : State) (client : Client)
    (named : String → Named)
    (hclient : env.newClient cmd = Except.ok client)
    (hparse : ∀ img ∈ images, env.ParseDockerRef img = Except.ok (named img))
    (hopts : imageOptions saveOpts = []) :
    ∃ opts, exportCalls ((saveImage env images out saveOpts cmd s).events s) = [(out, opts)] ∧
      imageOptions opts = images.map (fun img => (named img).String) ∧
      (imageOptions opts).length = images.length ∧
      (∀ (i : Nat) (img : String), images[i]? = some img →
        (imageOptions opts)[i]? = some (named img).String) ∧
      (∀ img ∈ images, ExportOpt.WithImage client.ImageService (named img).String ∈ opts) := by
  have hfirst : firstError env images = none :=
    (firstError_none env images).2 (fun img himg => ⟨named img, hparse img himg⟩)
  have hmap : images.map (canonical env) = images.map (fun img => (named img).String) :=
    List.map_congr_left (fun img himg => canonical_of_ok env img _ (hparse img himg))
  have himgs : imageOptions (exportOpts env client images saveOpts)
      = images.map (fun img => (named img).String) := by
    simp [exportOpts, hopts, imageOptions, hmap]
  refine ⟨exportOpts env client images saveOpts,
    saveImage_export_calls env images out saveOpts cmd s client hclient hfirst, himgs,
    by simp [himgs], ?_, ?_⟩
  · intro i img hi
    simp [himgs, hi]
  · intro img himg
    simp only [exportOpts, List.mem_append, List.mem_map]
    exact Or.inr ⟨img, himg, by rw [canonical_of_ok env img _ (hparse img himg)]⟩

/-- C3 at a concrete input: two images, two image options, in request order. -/
theorem saveImage_export_images_witness :
    ∃ opts, exportCalls ((saveImage (demoEnv false true) ["busybox", "alpine"] Writer.stdout []
        (demoCmd none "") (demoState none)).events (demoState none)) = [(Writer.stdout, opts)] ∧
      imageOptions opts = ["docker.io/library/busybox:latest", "docker.io/library/alpine:latest"] :=
  match saveImage_export_images (demoEnv false true) ["busybox", "alpine"] Writer.stdout []
      (demoCmd none "") (demoState none) ⟨0⟩ demoNamed rfl
      (by intro img himg
          simp only [List.mem_cons, List.mem_singleton, List.not_mem_nil, or_false] at himg
          rcases himg with h | h <;> subst h <;> rfl)
      rfl with
  | ⟨opts, hcall, himgs, _⟩ => ⟨opts, hcall, by rw [himgs]; decide⟩

/-- C5: `saveAction` only ever calls `saveImage` with an empty `saveOpts`, and
such a call that reaches `client.Export` (the client is created, every string
parses) hands it `1 + len(images)` options, the first being the platform
option of the strict default platform and no other being a platform option;
so the platform filter is always set. -/
theorem saveImage_default_platform (env : Env) (images : List String) (out : Writer)
    (cmd : Cmd) (s : State) (client : Client)
    (hclient : env.newClient cmd = Except.ok client)
    (hparse : ∀ img ∈ images, ∃ named, env.ParseDockerRef img = Except.ok named) :
    (∀ (args : List String) (s0 : State),
        ∀ call ∈ saveImageCalls ((saveAction env cmd args s0).events s0), call.2.2 = []) ∧
      ∃ opts, exportCalls ((saveImage env images out [] cmd s).events s) = [(out, opts)] ∧
        opts.length = 1 + images.length ∧
        opts.head? = some (ExportOpt.WithPlatform env.DefaultStrict) ∧
        platformOptions opts = [env.DefaultStrict] ∧
        (∀ o ∈ opts.tail, ∀ p, o ≠ ExportOpt.WithPlatform p) := by
  have hfirst : firstError env images = none := (firstError_none env images).2 hparse
  refine ⟨?_, exportOpts env client images [],
    saveImage_export_calls env images out [] cmd s client hclient hfirst, ?_, ?_, ?_, ?_⟩
  · intro args s0 call hcall
    by_cases hargs : args = []
    · subst hargs
      simp [saveAction_no_args, Outcome.events, saveImageCalls] at hcall
    · cases hflag : cmd.GetString "output" with
      | error e =>
        simp [saveAction_flag_error env cmd args s0 e hargs hflag, Outcome.events,
          saveImageCalls] at hcall
      | ok output =>
        by_cases hout : output = ""
        · subst hout
          cases htty : env.stdoutIsTerminal with
          | true =>
            simp [saveAction_terminal env cmd args s0 hargs hflag htty, Outcome.events,
              afterCheck, saveImageCalls] at hcall
          | false =>
            rw [saveAction_stream_events env cmd args s0 hargs hflag htty] at hcall
            simp [saveImage_calls, saveImageCalls] at hcall
            simp [hcall]
        · cases hopen : env.OpenFile output with
          | some e =>
            simp [saveAction_open_error env cmd args s0 output e hargs hflag hout hopen,
              Outcome.events, saveImageCalls] at hcall
          | none =>
            rw [saveAction_file_events env cmd args s0 output hargs hflag hout hopen] at hcall
            simp [saveImage_calls, saveImageCalls] at hcall
            simp [hcall]
  · simp [exportOpts]; omega
  · simp [exportOpts]
  · simp [exportOpts, platformOptions]
  · intro o ho p
    simp only [exportOpts, List.nil_append, List.singleton_append, List.tail_cons,
      List.mem_map] at ho
    obtain ⟨img, _, rfl⟩ := ho
    simp

/-- C5 at a concrete input: one image, two options, the platform first. -/
theorem saveImage_default_platform_witness :
    ∃ opts, exportCalls ((saveImage (demoEnv false true) ["alpine"] Writer.stdout []
        (demoCmd none "") (demoState none)).events (demoState none)) = [(Writer.stdout, opts)] ∧
      opts.length = 1 + ["alpine"].length ∧
      opts.head? = some (ExportOpt.WithPlatform (demoEnv false true).DefaultStrict) :=
  match (saveImage_default_platform (demoEnv false true) ["alpine"] Writer.stdout
      (demoCmd none "") (demoState none) ⟨0⟩ rfl
      (by intro img himg
          simp only [List.mem_singleton] at himg
          subst himg
          exact ⟨⟨"docker.io/library/alpine:latest"⟩, rfl⟩)).2 with
  | ⟨opts, hcall, hlen, hhead, _⟩ => ⟨opts, hcall, hlen, hhead⟩

/-- C6: when the strings at positions `i < j` of the request parse to the same
canonical string, the one `client.Export` call still carries one image option
per requested string: that canonical string sits at position `i` and again at
position `j`, and the image options are as many as the requested strings, more
than the distinct canonical strings among them. -/
theorem saveImage_keeps_duplicates (env : Env) (images : List String) (out : Writer)
    (saveOpts : List ExportOpt) (cmd : Cmd) (s : State) (client : Client)
    (i j : Nat) (a b : String) (na nb : Named)
    (hclient : env.newClient cmd = Except.ok client)
    (hparse : ∀ img ∈ images, ∃ named, env.ParseDockerRef img = Except.ok named)
    (hopts : imageOptions saveOpts = [])
    (hij : i < j) (hi : images[i]? = some a) (hj : images[j]? = some b)
    (ha : env.ParseDockerRef a = Except.ok na) (hb : env.ParseDockerRef b = Except.ok nb)
    (hsame : na.String = nb.String) :
    ∃ opts, exportCalls ((saveImage env images out saveOpts cmd s).events s) = [(out, opts)] ∧
      (imageOptions opts)[i]? = some na.String ∧
      (imageOptions opts)[j]? = some na.String ∧
      (imageOptions opts).length = images.length ∧
      (imageOptions opts).dedup.length < images.length := by
  have hfirst : firstError env images = none := (firstError_none env images).2 hparse
  have himgs : imageOptions (exportOpts env client images saveOpts)
      = images.map (canonical env) := by
    simp [exportOpts, hopts, imageOptions]
  have hati : (images.map (canonical env))[i]? = some na.String := by
    simp [hi, canonical_of_ok env a na ha]
  have hatj : (images.map (canonical env))[j]? = some na.String := by
    simp [hj, canonical_of_ok env b nb hb, hsame]
  have hjlt : j < (images.map (canonical env)).length := by
    have := (List.getElem?_eq_some.1 hj).1
    simpa using this
  refine ⟨exportOpts env client images saveOpts,
    saveImage_export_calls env images out saveOpts cmd s client hclient hfirst,
    by rw [himgs]; exact hati, by rw [himgs]; exact hatj, by simp [himgs], ?_⟩
  rw [himgs]
  have hsub := List.dedup_sublist (images.map (canonical env))
  have hle := hsub.length_le
  rcases Nat.lt_or_ge (images.map (canonical env)).dedup.length
      (images.map (canonical env)).length with hlt | hge
  · simpa using hlt
  · exfalso
    have heq := hsub.eq_of_length (Nat.le_antisymm hle hge)
    have hnodup := List.dedup_eq_self.1 heq
    exact (List.nodup_iff_getElem?_ne_getElem?.1 hnodup) i j hij hjlt (by rw [hati, hatj])

/-- C6 at a concrete input: `alpine` and `alpine:latest` have one canonical
string, and it is carried twice. -/
theorem saveImage_keeps_duplicates_witness :
    ∃ opts, exportCalls ((saveImage (demoEnv false true) ["alpine", "alpine:latest"]
        Writer.stdout [] (demoCmd none "") (demoState none)).events (demoState none))
          = [(Writer.stdout, opts)] ∧
      (imageOptions opts)[0]? = some "docker.io/library/alpine:latest" ∧
      (imageOptions opts)[1]? = some "docker.io/library/alpine:latest" ∧
      (imageOptions opts).length = 2 ∧
      (imageOptions opts).dedup.length < 2 :=
  saveImage_keeps_duplicates (demoEnv false true) ["alpine", "alpine:latest"] Writer.stdout []
    (demoCmd none "") (demoState none) ⟨0⟩ 0 1 "alpine" "alpine:latest"
    ⟨"docker.io/library/alpine:latest"⟩ ⟨"docker.io/library/alpine:latest"⟩ rfl
    (by intro img himg
        simp only [List.mem_cons, List.mem_singleton, List.not_mem_nil, or_false] at himg
        rcases himg with h | h <;> subst h <;> exact ⟨⟨"docker.io/library/alpine:latest"⟩, rfl⟩)
    rfl (by decide) rfl rfl rfl rfl rfl

/-! ## The claims about `saveAction` -/

/-- C1: the guard of `saveAction` tests `os.Stdout` while the archive goes to
`cmd.OutOrStdout()`, so the code departs from the claim where a writer is
installed on the command. With `os.Stdout` redirected and a terminal installed,
`--output` empty, `saveAction` does not refuse: it calls `saveImage` on that
terminal, which receives the archive. With `os.Stdout` a terminal and a plain
buffer installed, the sink is no terminal and `saveAction` still refuses. -/
theorem saveAction_checks_stdout_not_sink :
    (sinkIsTerminal (demoEnv false true) (demoCmd (some (7, true)) "") = true ∧
      (saveAction (demoEnv false true) (demoCmd (some (7, true)) "") ["alpine"]
        (demoState none)).result = none ∧
      saveImageCalls (saveAction (demoEnv false true) (demoCmd (some (7, true)) "") ["alpine"]
        (demoState none)).state.trace = [(["alpine"], Writer.setOut 7 true, [])] ∧
      (saveAction (demoEnv false true) (demoCmd (some (7, true)) "") ["alpine"]
        (demoState none)).state.others 7 = [1, 2, 3] ∧
      (saveAction (demoEnv false true) (demoCmd (some (7, true)) "") ["alpine"]
        (demoState none)).state.stdout = []) ∧
    (sinkIsTerminal (demoEnv true true) (demoCmd (some (7, false)) "") = false ∧
      (saveAction (demoEnv true true) (demoCmd (some (7, false)) "") ["alpine"]
        (demoState none)).result = some (Error.errorf
          "cowardly refusing to save to a terminal. Use the -o flag or redirect")) := by
  refine ⟨⟨by decide, by decide, by decide, by decide, by decide⟩, by decide, by decide⟩

/-- C4: without arguments `saveAction` returns "requires at least 1 argument"
and leaves the state as it found it, the trace included: no flag is read, no
file opened, no terminal checked, `saveImage` not called. With at least one
argument that error is never returned. -/
theorem saveAction_requires_argument (env : Env) (cmd : Cmd) (args : List String) (s : State) :
    (args = [] →
        saveAction env cmd args s = ⟨some (Error.errorf "requires at least 1 argument"), s⟩ ∧
          (saveAction env cmd args s).events s = []) ∧
      (args ≠ [] →
        (saveAction env cmd args s).result ≠
          some (Error.errorf "requires at least 1 argument")) := by
  refine ⟨?_, ?_⟩
  · intro hargs
    subst hargs
    simp [saveAction_no_args, Outcome.events]
  · intro hargs hres
    cases hflag : cmd.GetString "output" with
    | error e =>
      rw [saveAction_flag_error env cmd args s e hargs hflag] at hres
      simp at hres
    | ok output =>
      by_cases hout : output = ""
      · subst hout
        cases htty : env.stdoutIsTerminal with
        | true =>
          rw [saveAction_terminal env cmd args s hargs hflag htty] at hres
          simp only [Option.some.injEq, Error.errorf.injEq] at hres
          exact absurd hres (by decide)
        | false =>
          rw [saveAction_stream env cmd args s hargs hflag htty] at hres
          exact absurd hres (saveImage_result_external _ _ _ _ _ _ _)
      · cases hopen : env.OpenFile output with
        | some e =>
          rw [saveAction_open_error env cmd args s output e hargs hflag hout hopen] at hres
          simp at hres
        | none =>
          rw [saveAction_file env cmd args s output hargs hflag hout hopen] at hres
          exact absurd hres (saveImage_result_external _ _ _ _ _ _ _)

/-- C4 at concrete inputs: no argument, then one argument that is rejected. -/
theorem saveAction_requires_argument_witness :
    (saveAction (demoEnv true true) (demoCmd none "") [] (demoState none)).events
        (demoState none) = [] ∧
      (saveAction (demoEnv false true) (demoCmd none "") ["Bad Ref"] (demoState none)).result ≠
        some (Error.errorf "requires at least 1 argument") :=
  ⟨((saveAction_requires_argument (demoEnv true true) (demoCmd none "") []
      (demoState none)).1 rfl).2,
    (saveAction_requires_argument (demoEnv false true) (demoCmd none "") ["Bad Ref"]
      (demoState none)).2 (by decide)⟩

/-- C8: with at least one argument and a non-empty `--output` path, a failed
open is returned unchanged and `saveImage` is not called; after a successful
open `saveImage` is called once, on the opened file, which is not the command's
writer; the terminal check is not run, and whether `os.Stdout` is a terminal
changes nothing in the outcome. -/
theorem saveAction_output_file (env : Env) (cmd : Cmd) (args : List String) (s : State)
    (output : String) (hargs : args ≠ [])
    (hflag : cmd.GetString "output" = Except.ok output) (hout : output ≠ "") :
    (∀ e, env.OpenFile output = some e →
        (saveAction env cmd args s).result = some (Error.external e) ∧
          saveImageCalls ((saveAction env cmd args s).events s) = []) ∧
      (env.OpenFile output = none →
        saveImageCalls ((saveAction env cmd args s).events s)
            = [(args, Writer.file output, [])] ∧
          Writer.file output ≠ cmd.OutOrStdout) ∧
      checksTerminal ((saveAction env cmd args s).events s) = false ∧
      (∀ tty, saveAction { env with stdoutIsTerminal := tty } cmd args s
        = saveAction env cmd args s) := by
  refine ⟨?_, ?_, ?_, ?_⟩
  · intro e hopen
    rw [saveAction_open_error env cmd args s output e hargs hflag hout hopen]
    simp [Outcome.events, saveImageCalls]
  · intro hopen
    rw [saveAction_file_events env cmd args s output hargs hflag hout hopen]
    refine ⟨by simp [saveImage_calls, saveImageCalls], ?_⟩
    unfold Cmd.OutOrStdout
    split <;> simp
  · cases hopen : env.OpenFile output with
    | some e =>
      rw [saveAction_open_error env cmd args s output e hargs hflag hout hopen]
      simp [Outcome.events, checksTerminal]
    | none =>
      rw [saveAction_file_events env cmd args s output hargs hflag hout hopen]
      simp [saveImage_no_check, checksTerminal]
  · intro tty
    cases hopen : env.OpenFile output with
    | some e =>
      rw [saveAction_open_error env cmd args s output e hargs hflag hout hopen,
        saveAction_open_error { env with stdoutIsTerminal := tty } cmd args s output e hargs
          hflag hout hopen]
    | none =>
      rw [saveAction_file env cmd args s output hargs hflag hout hopen,
        saveAction_file { env with stdoutIsTerminal := tty } cmd args s output hargs
          hflag hout hopen, saveImage_tty]

/-- C8 at concrete inputs: a path that cannot be opened, and one that can while
`os.Stdout` is a terminal. -/
theorem saveAction_output_file_witness :
    ((saveAction (demoEnv true true) (demoCmd none "/proc/out.tar") ["alpine"]
        (demoState none)).result = some (Error.external ⟨"permission denied"⟩) ∧
      saveImageCalls ((saveAction (demoEnv true true) (demoCmd none "/proc/out.tar") ["alpine"]
        (demoState none)).events (demoState none)) = []) ∧
    (saveImageCalls ((saveAction (demoEnv true true) (demoCmd none "out.tar") ["alpine"]
        (demoState none)).events (demoState none))
          = [(["alpine"], Writer.file "out.tar", [])] ∧
      Writer.file "out.tar" ≠ (demoCmd none "out.tar").OutOrStdout) :=
  ⟨(saveAction_output_file (demoEnv true true) (demoCmd none "/proc/out.tar") ["alpine"]
      (demoState none) "/proc/out.tar" (by decide) rfl (by decide)).1 ⟨"permission denied"⟩ rfl,
    (saveAction_output_file (demoEnv true true) (demoCmd none "out.tar") ["alpine"]
      (demoState none) "out.tar" (by decide) rfl (by decide)).2.1 rfl⟩

/-- C10: after a successful save to a `--output` path whose file held `P`, the
file holds the bytes `A` the exporter wrote followed by the bytes of `P` beyond
offset `len(A)`; it equals `A` exactly when `len(P) <= len(A)`. -/
theorem saveAction_overwrites_in_place (env : Env) (cmd : Cmd) (args : List String) (s : State)
    (output : String) (P : List Byte)
    (hflag : cmd.GetString "output" = Except.ok output) (hout : output ≠ "")
    (hold : s.files output = some P)
    (hok : (saveAction env cmd args s).result = none) :
    (saveAction env cmd args s).state.files output =
        some (writtenBytes ((saveAction env cmd args s).events s)
          ++ P.drop (writtenBytes ((saveAction env cmd args s).events s)).length) ∧
      ((saveAction env cmd args s).state.files output =
          some (writtenBytes ((saveAction env cmd args s).events s)) ↔
        P.length ≤ (writtenBytes ((saveAction env cmd args s).events s)).length) := by
  have hargs : args ≠ [] := by
    intro h
    subst h
    simp [saveAction_no_args] at hok
  cases hopen : env.OpenFile output with
  | some e =>
    simp [saveAction_open_error env cmd args s output e hargs hflag hout hopen] at hok
  | none =>
    cases hclient : env.newClient cmd with
    | error e =>
      simp [saveAction_file env cmd args s output hargs hflag hout hopen,
        saveImage_client_error env args (Writer.file output) [] cmd _ e hclient] at hok
    | ok client =>
      cases hfirst : firstError env args with
      | some e =>
        simp [saveAction_file env cmd args s output hargs hflag hout hopen,
          saveImage_parse_error env args (Writer.file output) [] cmd _ client e hclient
            hfirst] at hok
      | none =>
        have hfile : (saveAction env cmd args s).state.files output =
            some ((env.Export client (Writer.file output)
                (exportOpts env client args [])).1.flatten
              ++ P.drop (env.Export client (Writer.file output)
                (exportOpts env client args [])).1.flatten.length) := by
          rw [saveAction_file env cmd args s output hargs hflag hout hopen]
          simp only [State.log]
          exact saveImage_export_file env args output [] cmd (afterOpen s output) client P
            hclient hfirst (by rw [afterOpen_files, hold]; rfl) (afterOpen_pos s output)
        have hbytes : writtenBytes ((saveAction env cmd args s).events s) =
            (env.Export client (Writer.file output) (exportOpts env client args [])).1.flatten := by
          rw [saveAction_file_events env cmd args s output hargs hflag hout hopen,
            saveImage_export_events env args (Writer.file output) [] cmd _ client hclient hfirst]
          simp [writtenBytes]
        rw [hbytes, hfile]
        simp

/-- C10 at a concrete input: a three-byte archive over a five-byte file keeps
the last two old bytes. -/
theorem saveAction_overwrites_in_place_witness :
    (saveAction (demoEnv false true) (demoCmd none "out.tar") ["alpine"]
        (demoState (some [9, 8, 7, 6, 5]))).state.files "out.tar" = some [1, 2, 3, 6, 5] :=
  (saveAction_overwrites_in_place (demoEnv false true) (demoCmd none "out.tar") ["alpine"]
    (demoState (some [9, 8, 7, 6, 5])) "out.tar" [9, 8, 7, 6, 5] rfl (by decide) rfl
    (by decide)).1.trans (by decide)

/-- C7, as stated, fails twice over. A save to `out.tar` that is aborted by a
rejected reference returns an error and leaves the file exactly as it was, so a
file that held a trailing index entry before the call still does after it. And
on a missing file, a save whose exporter writes its whole output and then
reports an error leaves that whole output in the file, the last chunk included,
so it holds a trailing index entry whenever that output does. -/
theorem saveAction_failure_can_leave_index :
    ((saveAction (demoEnv false true) (demoCmd none "out.tar") ["Bad Ref"]
        (demoState (some [105, 110, 100, 101, 120]))).result
        = some (Error.external ⟨"invalid reference format"⟩) ∧
      (saveAction (demoEnv false true) (demoCmd none "out.tar") ["Bad Ref"]
        (demoState (some [105, 110, 100, 101, 120]))).state.files "out.tar"
        = some [105, 110, 100, 101, 120] ∧
      ∀ hasTrailingIndex : List Byte → Bool,
        hasTrailingIndex [105, 110, 100, 101, 120] = true →
        ∃ bs, (saveAction (demoEnv false true) (demoCmd none "out.tar") ["Bad Ref"]
            (demoState (some [105, 110, 100, 101, 120]))).state.files "out.tar" = some bs ∧
          hasTrailingIndex bs = true) ∧
    ((demoState none).files "out.tar" = none ∧
      (saveAction (demoEnv false true) (demoCmd none "out.tar") ["nginx"]
        (demoState none)).result = some (Error.external ⟨"close: input/output error"⟩) ∧
      (demoExport ⟨0⟩ (Writer.file "out.tar")
        [ExportOpt.WithPlatform 0, ExportOpt.WithImage 0 "docker.io/library/nginx:latest"]).1
        = [[1, 2], [105, 110, 100, 101, 120]] ∧
      (saveAction (demoEnv false true) (demoCmd none "out.tar") ["nginx"]
        (demoState none)).state.files "out.tar" = some [1, 2, 105, 110, 100, 101, 120] ∧
      ∀ hasTrailingIndex : List Byte → Bool,
        hasTrailingIndex [1, 2, 105, 110, 100, 101, 120] = true →
        ∃ bs, (saveAction (demoEnv false true) (demoCmd none "out.tar") ["nginx"]
            (demoState none)).state.files "out.tar" = some bs ∧
          hasTrailingIndex bs = true) := by
  have hold : (saveAction (demoEnv false true) (demoCmd none "out.tar") ["Bad Ref"]
      (demoState (some [105, 110, 100, 101, 120]))).state.files "out.tar"
      = some [105, 110, 100, 101, 120] := by decide
  have hnew : (saveAction (demoEnv false true) (demoCmd none "out.tar") ["nginx"]
      (demoState none)).state.files "out.tar" = some [1, 2, 105, 110, 100, 101, 120] := by
    decide
  exact ⟨⟨by decide, hold, fun _ hidx => ⟨_, hold, hidx⟩⟩,
    ⟨rfl, by decide, by decide, hnew, fun _ hidx => ⟨_, hnew, hidx⟩⟩⟩

/-- C7, amended: when the file at the `--output` path was missing or empty
before the call and `saveAction` returns an error, then either `client.Export`
was never called and the file is afterwards missing or empty, or it was called
once on that file, itself returned an error, and the file holds exactly the
bytes it wrote, nothing else; a rejected reference is always a failure of the
first kind. -/
theorem saveAction_failure_leaves_exporter_bytes (env : Env) (cmd : Cmd) (args : List String)
    (s : State) (output : String)
    (hflag : cmd.GetString "output" = Except.ok output) (hout : output ≠ "")
    (hfresh : s.files output = none ∨ s.files output = some [])
    (hfail : (saveAction env cmd args s).result ≠ none) :
    ((exportCalls ((saveAction env cmd args s).events s) = [] ∧
          ((saveAction env cmd args s).state.files output = none ∨
            (saveAction env cmd args s).state.files output = some [])) ∨
        ∃ client opts,
          exportCalls ((saveAction env cmd args s).events s) = [(Writer.file output, opts)] ∧
          (env.Export client (Writer.file output) opts).2 ≠ none ∧
          (saveAction env cmd args s).state.files output =
            some (env.Export client (Writer.file output) opts).1.flatten) ∧
      (firstError env args ≠ none →
        exportCalls ((saveAction env cmd args s).events s) = []) := by
  have hkeep : ∀ r : Outcome, r.state.files = s.files → exportCalls (r.events s) = [] →
      ((exportCalls (r.events s) = [] ∧
          (r.state.files output = none ∨ r.state.files output = some [])) ∨
        ∃ client opts, exportCalls (r.events s) = [(Writer.file output, opts)] ∧
          (env.Export client (Writer.file output) opts).2 ≠ none ∧
          r.state.files output = some (env.Export client (Writer.file output) opts).1.flatten) ∧
      (firstError env args ≠ none → exportCalls (r.events s) = []) := by
    intro r hfiles hcalls
    refine ⟨Or.inl ⟨hcalls, ?_⟩, fun _ => hcalls⟩
    rw [hfiles]
    exact hfresh
  have hgetD : (s.files output).getD [] = [] := by
    rcases hfresh with h | h <;> simp [h]
  by_cases hargs : args = []
  · subst hargs
    exact hkeep _ (by simp [saveAction_no_args]) (by simp [saveAction_no_args, Outcome.events,
      exportCalls])
  · cases hopen : env.OpenFile output with
    | some e =>
      exact hkeep _
        (by simp [saveAction_open_error env cmd args s output e hargs hflag hout hopen])
        (by simp [saveAction_open_error env cmd args s output e hargs hflag hout hopen,
          Outcome.events, exportCalls])
    | none =>
      have hev := saveAction_file_events env cmd args s output hargs hflag hout hopen
      have hact := saveAction_file env cmd args s output hargs hflag hout hopen
      cases hclient : env.newClient cmd with
      | error e =>
        have himg := saveImage_client_error env args (Writer.file output) [] cmd
          (afterOpen s output) e hclient
        have hfile : (saveAction env cmd args s).state.files output = some [] := by
          rw [hact, himg]
          simp only [State.log]
          rw [afterOpen_files, hgetD]
        have hcalls : exportCalls ((saveAction env cmd args s).events s) = [] := by
          rw [hev, himg]
          simp [Outcome.events, exportCalls]
        exact ⟨Or.inl ⟨hcalls, Or.inr hfile⟩, fun _ => hcalls⟩
      | ok client =>
        cases hfirst : firstError env args with
        | some e =>
          have himg := saveImage_parse_error env args (Writer.file output) [] cmd
            (afterOpen s output) client e hclient hfirst
          have hfile : (saveAction env cmd args s).state.files output = some [] := by
            rw [hact, himg]
            simp only [State.log]
            rw [afterOpen_files, hgetD]
          have hcalls : exportCalls ((saveAction env cmd args s).events s) = [] := by
            rw [hev, himg]
            simp [Outcome.events, exportCalls]
          exact ⟨Or.inl ⟨hcalls, Or.inr hfile⟩, fun _ => hcalls⟩
        | none =>
          have hfile : (saveAction env cmd args s).state.files output =
              some (env.Export client (Writer.file output)
                  (exportOpts env client args [])).1.flatten := by
            rw [hact]
            simp only [State.log]
            have h := saveImage_export_file env args output [] cmd (afterOpen s output) client []
              hclient hfirst (by rw [afterOpen_files, hgetD]) (afterOpen_pos s output)
            simpa using h
          have hcalls : exportCalls ((saveAction env cmd args s).events s) =
              [(Writer.file output, exportOpts env client args [])] := by
            rw [hev]
            simp [saveImage_export_calls env args (Writer.file output) [] cmd _ client hclient
              hfirst, exportCalls]
          have hres : (env.Export client (Writer.file output)
              (exportOpts env client args [])).2 ≠ none := by
            intro hnone
            apply hfail
            rw [hact, saveImage_export env args (Writer.file output) [] cmd _ client hclient
              hfirst]
            simp [hnone]
          exact ⟨Or.inr ⟨client, _, hcalls, hres, hfile⟩, fun h => absurd rfl h⟩

/-- C7, amended, at a concrete input: `out.tar` is missing and the reference is
rejected, so `client.Export` is never called. -/
theorem saveAction_failure_leaves_exporter_bytes_witness :
    firstError (demoEnv false true) ["alpine", "Bad Ref"] ≠ none ∧
      exportCalls ((saveAction (demoEnv false true) (demoCmd none "out.tar")
        ["alpine", "Bad Ref"] (demoState none)).events (demoState none)) = [] :=
  ⟨by decide,
    (saveAction_failure_leaves_exporter_bytes (demoEnv false true) (demoCmd none "out.tar")
      ["alpine", "Bad Ref"] (demoState none) "out.tar" rfl (by decide) (Or.inl rfl)
      (by decide)).2 (by decide)⟩

/-! ## The claim about `capShellComplete` -/

/-- The loop of `capShellComplete` appends one candidate per name. -/
theorem capLoop_eq (lower : Char → Char) (known candidates : List String) :
    capLoop lower known candidates =
      candidates ++ known.map (fun c => ToLower lower (TrimPrefix c "CAP_")) := by
  induction known generalizing candidates with
  | nil => simp [capLoop]
  | cons c rest ih => simp [capLoop, ih]

/-- C9: `capShellComplete` returns one candidate per known capability name, in
the same order, the i-th being the i-th name with one leading "CAP_" removed if
present and then lower-cased, together with `ShellCompDirectiveNoFileComp`; the
result is the same for every `cmd`, `args` and `toComplete`. Removing the prefix
takes exactly one "CAP_" off a name that starts with it and leaves any other
name alone, and "CAP_SYS_ADMIN" yields "sys_admin". -/
theorem capShellComplete_candidates (lower : Char → Char) (known : List String) (cmd : Cmd)
    (args : List String) (toComplete : String) :
    (capShellComplete lower known cmd args toComplete).1 =
        known.map (fun c => ToLower lower (TrimPrefix c "CAP_")) ∧
      (capShellComplete lower known cmd args toComplete).1.length = known.length ∧
      (∀ (i : Nat) (c : String), known[i]? = some c →
        (capShellComplete lower known cmd args toComplete).1[i]?
          = some (ToLower lower (TrimPrefix c "CAP_"))) ∧
      (capShellComplete lower known cmd args toComplete).2 = ShellCompDirectiveNoFileComp ∧
      (∀ (cmd' : Cmd) (args' : List String) (toComplete' : String),
        capShellComplete lower known cmd' args' toComplete'
          = capShellComplete lower known cmd args toComplete) ∧
      (∀ rest : String, TrimPrefix ("CAP_" ++ rest) "CAP_" = rest) ∧
      (∀ c : String, HasPrefix c "CAP_" = false → TrimPrefix c "CAP_" = c) ∧
      ((∀ ch : Char, ch.val < 128 → lower ch = ch.toLower) →
        (capShellComplete lower ["CAP_SYS_ADMIN"] cmd args toComplete).1 = ["sys_admin"]) := by
  have hmap : (capShellComplete lower known cmd args toComplete).1 =
      known.map (fun c => ToLower lower (TrimPrefix c "CAP_")) := by
    simp [capShellComplete, capLoop_eq]
  refine ⟨hmap, by simp [hmap], ?_, rfl, fun _ _ _ => rfl, ?_, ?_, ?_⟩
  · intro i c hi
    simp [hmap, hi]
  · intro rest
    simp [TrimPrefix, HasPrefix]
  · intro c hc
    simp [TrimPrefix, hc]
  · intro hlower
    simp only [capShellComplete, capLoop, TrimPrefix, HasPrefix, ToLower]
    have hS := hlower 'S' (by decide)
    have hY := hlower 'Y' (by decide)
    have hU := hlower '_' (by decide)
    have hA := hlower 'A' (by decide)
    have hD := hlower 'D' (by decide)
    have hM := hlower 'M' (by decide)
    have hI := hlower 'I' (by decide)
    have hN := hlower 'N' (by decide)
    simp [hS, hY, hU, hA, hD, hM, hI, hN]

/-- C9 at a concrete input: two names, one with the prefix twice, lower-cased
with the ASCII rule. -/
theorem capShellComplete_candidates_witness :
    (capShellComplete Char.toLower ["CAP_SYS_ADMIN"] (demoCmd none "") [] "").1
        = ["sys_admin"] ∧
      TrimPrefix ("CAP_" ++ "CAP_CHOWN") "CAP_" = "CAP_CHOWN" ∧
      TrimPrefix "cap_chown" "CAP_" = "cap_chown" :=
  ⟨(capShellComplete_candidates Char.toLower [] (demoCmd none "") [] "").2.2.2.2.2.2.2
      (fun _ _ => rfl),
    (capShellComplete_candidates Char.toLower [] (demoCmd none "") [] "").2.2.2.2.2.1 "CAP_CHOWN",
    (capShellComplete_candidates Char.toLower [] (demoCmd none "") [] "").2.2.2.2.2.2.1
      "cap_chown" (by decide)⟩

end Nerdctl
